import Mathlib

/-!
Shallow embedding of the cytoscape.js-layers sources
(src/src/LayersPlugin.ts and src/src/elements/nodes.ts), together with
theorems settling the specification claims about the layer stack, the
per-node render bindings, the deferred-update scheduler, the listener
bookkeeping and the plugin accessor.
-/

namespace StackM

/-- A DOM element inside the shared container: its identity and the
`__cy_layer` back reference (`ILayerElement`), `none` for children that
are not layer roots. Layers themselves are identified by a `Nat`. -/
structure Elem where
  id : Nat
  cyLayer : Option Nat
deriving DecidableEq, Repr

/-- The shared container's child list, in DOM order. -/
abbrev Children := List Elem

/-- Plugin state: the container children (`this.root.children`) plus a
fresh-id counter standing for object allocation. Mirroring
`LayersPlugin`, the state stores no layer order anywhere besides the DOM
children themselves (the class has no field caching the stack). -/
structure State where
  children : Children
  fresh : Nat
deriving DecidableEq, Repr

/-- `LayersPlugin.layers` (LayersPlugin.ts:86-90):
`Array.from(this.root.children).map((d) => d.__cy_layer).filter((d) => d != null)`. -/
def getLayers (cs : Children) : List Nat :=
  ((cs.map (fun e => e.cyLayer)).filter (fun d => d.isSome)).reduceOption

/-- The live child order of the shared container, restricted to layer
roots: the reading of "child order" used by the spec's enumeration
invariant. -/
def childLayerOrder (cs : Children) : List Nat :=
  (cs.filter (fun e => e.cyLayer.isSome)).filterMap (fun e => e.cyLayer)

/-- JavaScript `Array.prototype.indexOf`: index of the first occurrence,
`-1` when absent. -/
def jsIndexOf (l : List Nat) (x : Nat) : Int :=
  match l.findIdx? (fun y => y == x) with
  | some i => (i : Int)
  | none => -1

/-- Insert an element at position `i` of a child list. -/
def insertAt (l : Children) (i : Nat) (e : Elem) : Children :=
  l.take i ++ e :: l.drop i

/-- DOM `appendChild(layer.root)`: detaches the element from its current
position, then appends it at the end. -/
def domAppendChild (cs : Children) (r : Elem) : Children :=
  (cs.filter (fun e => e.id != r.id)) ++ [r]

/-- DOM `insertBefore(layer.root, ref)`: detaches the element, then
inserts it directly before the child `refId`; `none` when `refId` is not
a child (the DOM throws there). -/
def domInsertBefore (cs : Children) (r : Elem) (refId : Nat) : Option Children :=
  let s := cs.filter (fun e => e.id != r.id)
  match s.findIdx? (fun e => e.id == refId) with
  | some i => some (insertAt s i r)
  | none => Option.none

/-- `LayersPlugin.move` (LayersPlugin.ts:64-76), translated verbatim:
`const target = Math.max(Math.min(index + offset, l.length, 0))` — note
that `Math.max` receives a single argument, so `target` is just the
minimum of `index + offset`, `l.length` and `0`. The result is `none`
exactly where the JavaScript would throw: accessing `l[target].root` at
a negative `target`, or operating on a layer whose root is absent. -/
def moveLayer (st : State) (layerId : Nat) (offset : Int) : Option State :=
  let l := getLayers st.children
  let index : Int := jsIndexOf l layerId
  let target : Int := min (min (index + offset) (l.length : Int)) 0
  if target = index then some st
  else
    match st.children.find? (fun e => e.cyLayer == some layerId) with
    | Option.none => Option.none
    | some r =>
      if (l.length : Int) - 1 ≤ index then
        some { st with children := domAppendChild st.children r }
      else if target < 0 then Option.none
      else
        match l[target.toNat]? with
        | Option.none => Option.none
        | some refLayer =>
          match st.children.find? (fun e => e.cyLayer == some refLayer) with
          | Option.none => Option.none
          | some refRoot =>
            match domInsertBefore st.children r refRoot.id with
            | some cs => some { st with children := cs }
            | Option.none => Option.none

/-- `LayersPlugin.append` (LayersPlugin.ts:155-159): create a layer and
append its root to the container. -/
def appendOp (st : State) : State :=
  { children := st.children ++ [⟨st.fresh, some st.fresh⟩], fresh := st.fresh + 1 }

/-- The `where` argument of `insert`. -/
inductive InsWhere
  | before
  | after
deriving DecidableEq, Repr

/-- `LayersPlugin.insert` (LayersPlugin.ts:169-173) restricted to a
reference root inside this container: create a layer, then
`ref.root.insertAdjacentElement('beforebegin' | 'afterend', layer.root)`;
when the reference root has no position in this container the DOM call
inserts nothing (the layer is created but not attached here). -/
def insertOp (st : State) (wh : InsWhere) (refLayerId : Nat) : State :=
  let e : Elem := ⟨st.fresh, some st.fresh⟩
  let cs :=
    match st.children.findIdx? (fun c => c.cyLayer == some refLayerId) with
    | some i => insertAt st.children (match wh with | .before => i | .after => i + 1) e
    | Option.none => st.children
  { children := cs, fresh := st.fresh + 1 }

/-- The stack operations of the enumeration claim. -/
inductive StackOp
  | append
  | ins (wh : InsWhere) (refLayerId : Nat)
  | moveBy (layerId : Nat) (offset : Int)
deriving Repr

/-- Run a sequence of stack operations; `none` as soon as one of them
would throw. -/
def runOps : List StackOp → State → Option State
  | [], st => some st
  | op :: rest, st =>
    match (match op with
           | .append => some (appendOp st)
           | .ins wh r => some (insertOp st wh r)
           | .moveBy l o => moveLayer st l o) with
    | some st2 => runOps rest st2
    | Option.none => Option.none

/-- The empty stack. -/
def init0 : State := ⟨[], 0⟩

/-- A stack of three layers 0, 1, 2 in that order. -/
def initStack3 : State := ⟨[⟨0, some 0⟩, ⟨1, some 1⟩, ⟨2, some 2⟩], 3⟩

/-- C1: the claim says `move(layer, offset)` relocates the layer to index
`clamp(index + offset, 0, length - 1)`. On the stack `[0, 1, 2]`,
`move`-ing layer 1 (index 1) by `+1` should therefore yield `[0, 2, 1]`.
The code instead computes `target = min(index + offset, length, 0) = 0`
and inserts the layer before the first child, yielding `[1, 0, 2]`: the
single-argument `Math.max` makes the clamp collapse to `min(·, 0)`. -/
theorem c1_move_clamp_defect :
    (moveLayer initStack3 1 1).map (fun st => getLayers st.children) = some [1, 0, 2] ∧
    (((moveLayer initStack3 1 1).map (fun st => getLayers st.children)) == some [0, 2, 1])
      = false := by
  decide

/-- Enumeration computed by the source (`map` then `filter` then unwrap)
agrees with the container's layer child order for every child list. -/
theorem getLayers_eq_childLayerOrder (cs : Children) :
    getLayers cs = childLayerOrder cs := by
  induction cs with
  | nil => rfl
  | cons e t ih =>
    cases h : e.cyLayer <;>
      simp [getLayers, childLayerOrder, List.filter_cons, List.filterMap_cons, h,
        List.reduceOption] at ih ⊢ <;>
      exact ih

/-- C3: after every sequence of append, insert and move operations, the
sequence returned by enumeration (`getLayers`) equals the live child
order of the shared container. The plugin state holds no other copy of
the order (mirroring the class, whose only storage of the stack is the
DOM), so enumeration is derived from the container on each read. -/
theorem c3_enumeration_matches_container (ops : List StackOp) (st : State)
    (_h : runOps ops init0 = some st) :
    getLayers st.children = childLayerOrder st.children :=
  getLayers_eq_childLayerOrder st.children

/-- The scenario of the spec: append, append, insert-before the second. -/
def c3Scenario : List StackOp :=
  [StackOp.append, StackOp.append, StackOp.ins InsWhere.before 1]

theorem c3_enumeration_matches_container_witness :
    runOps c3Scenario init0 = some ⟨[⟨0, some 0⟩, ⟨2, some 2⟩, ⟨1, some 1⟩], 3⟩ ∧
    getLayers (⟨[⟨0, some 0⟩, ⟨2, some 2⟩, ⟨1, some 1⟩], 3⟩ : State).children
      = childLayerOrder (⟨[⟨0, some 0⟩, ⟨2, some 2⟩, ⟨1, some 1⟩], 3⟩ : State).children :=
  ⟨by decide, c3_enumeration_matches_container c3Scenario _ (by decide)⟩

/-- Two DOM containers, for the ownership question of `insert`: the
calling stack's container and a foreign container holding a reference
root that does not belong to the calling stack. -/
structure World where
  mine : Children
  other : Children
  fresh : Nat
deriving DecidableEq, Repr

/-- `insertAdjacentElement` relative to the element `refId` inside one
child list: `none` when the reference is not there. -/
def insertAdjacent (cs : Children) (refId : Nat) (wh : InsWhere) (e : Elem) : Option Children :=
  match cs.findIdx? (fun c => c.id == refId) with
  | some i => some (insertAt cs (match wh with | .before => i | .after => i + 1) e)
  | none => Option.none

/-- `LayersPlugin.insert` (LayersPlugin.ts:169-173) in the two-container
world: the code creates the layer unconditionally and calls
`ref.root.insertAdjacentElement(...)`, which places the new root next to
the reference root in whichever container holds it, and silently places
nothing when the reference root has no parent. There is no ownership
check and no throwing path, so the result is always `Except.ok`. -/
def insertW (w : World) (wh : InsWhere) (refRootId : Nat) : Except String (Nat × World) :=
  match insertAdjacent w.mine refRootId wh ⟨w.fresh, some w.fresh⟩ with
  | some m => .ok (w.fresh, { w with mine := m, fresh := w.fresh + 1 })
  | none =>
    match insertAdjacent w.other refRootId wh ⟨w.fresh, some w.fresh⟩ with
    | some o2 => .ok (w.fresh, { w with other := o2, fresh := w.fresh + 1 })
    | none => .ok (w.fresh, { w with fresh := w.fresh + 1 })

/-- A world where the calling stack owns layer 0 and a foreign container
owns the reference root 10. -/
def w0 : World := ⟨[⟨0, some 0⟩], [⟨10, some 10⟩], 11⟩

/-- C5 counterexample: the claim says `insert` fails synchronously when
the reference Surface does not belong to the calling stack. Calling
`insert('before', ref, kind)` with the foreign reference root 10 instead
succeeds: it creates layer 11 and places its root inside the foreign
container, and the calling stack is untouched — no error is surfaced. -/
theorem c5_counterexample_foreign_ref :
    insertW w0 InsWhere.before 10
      = Except.ok (11, ⟨[⟨0, some 0⟩], [⟨11, some 11⟩, ⟨10, some 10⟩], 12⟩) := by
  rfl

/-- C5 amended: `insert` performs no ownership check at all: for every
world, direction and reference it returns `ok` with a freshly created
layer, even when the reference root belongs to a foreign container or to
none. -/
theorem c5_insert_no_ownership_check (w : World) (wh : InsWhere) (refRootId : Nat) :
    (insertW w wh refRootId).isOk = true ∧
    ∃ w2, insertW w wh refRootId = Except.ok (w.fresh, w2) := by
  unfold insertW
  split
  · exact ⟨rfl, _, rfl⟩
  · split
    · exact ⟨rfl, _, rfl⟩
    · exact ⟨rfl, _, rfl⟩

end StackM

namespace NodesM

/-- A bounding box (`cy.BoundingBox12`): corners `(x1, y1)` and `(x2, y2)`. -/
structure BB where
  x1 : Int
  y1 : Int
  x2 : Int
  y2 : Int
deriving DecidableEq, Repr

/-- A host node as seen by `renderPerNode`: identity, the `removed()`
flag, the `position()` point and the bounding box returned by
`node.boundingBox(o.boundingBox)`. -/
structure CNode where
  id : Nat
  removed : Bool
  posX : Int
  posY : Int
  bb : BB
deriving DecidableEq, Repr

/-- The `position` option of `renderPerNode`: `'none' | 'top-left' | 'center'`. -/
inductive NPosition
  | none
  | topLeft
  | center
deriving DecidableEq, Repr

/-- The drawing context's transform, tracked as its translation
component: `ctx.translate` composes a translation and `ctx.setTransform`
restores a saved value, which is all the renderer itself does; the
caller's draw callback may replace it arbitrarily. -/
abbrev Transform := Int × Int

/-- `ctx.translate(dx, dy)`. -/
def translate (t : Transform) (dx dy : Int) : Transform := (t.1 + dx, t.2 + dy)

/-- Modelled from the spec: `inVisibleBounds` of `ABaseLayer` (its file is
not under src/): whether the bounding box intersects the currently
visible viewport region (section 4.3: an element whose bounding box does
not intersect the visible region is skipped). -/
def inVisibleBounds (view bb : BB) : Bool :=
  bb.x1 ≤ view.x2 && view.x1 ≤ bb.x2 && bb.y1 ≤ view.y2 && view.y1 ≤ bb.y2

/-- The configuration of the canvas branch of `renderPerNode` that the
per-element loop reads. -/
structure CanvasPassOpts where
  position : NPosition
  checkBounds : Bool
deriving DecidableEq, Repr

/-- Trace of one canvas render pass: the context transform, the nodes
actually drawn, the transform each draw callback was entered with, and
the transform left behind after each element's processing (what the next
sibling observes). -/
structure PassTrace where
  transform : Transform
  rendered : List CNode
  entryTransforms : List Transform
  afterTransforms : List Transform
deriving DecidableEq, Repr

/-- One iteration of the `nodes.forEach` loop of the canvas renderer
(nodes.ts:180-198): skip removed nodes; skip out-of-bounds nodes unless
the pass is for export; translate to the anchor for `top-left`/`center`;
run the caller's draw callback (`render`, modelled by its effect on the
transform); restore the saved transform `t` unless `position` is
`'none'`. -/
def canvasStep (o : CanvasPassOpts) (inVis : BB → Bool) (forExport : Bool)
    (render : CNode → Transform → Transform) (t : Transform)
    (st : PassTrace) (node : CNode) : PassTrace :=
  if node.removed then st
  else if !forExport && o.checkBounds && !(inVis node.bb) then st
  else
    let ctx1 : Transform :=
      match o.position with
      | .topLeft => translate st.transform node.bb.x1 node.bb.y1
      | .center => translate st.transform node.posX node.posY
      | .none => st.transform
    let ctx2 := render node ctx1
    let ctx3 := if o.position = NPosition.none then ctx2 else t
    { transform := ctx3
      rendered := st.rendered ++ [node]
      entryTransforms := st.entryTransforms ++ [ctx1]
      afterTransforms := st.afterTransforms ++ [ctx3] }

/-- The canvas renderer of `renderPerNode` (nodes.ts:175-199): saves
`t = ctx.getTransform()` and folds the per-element step over the nodes. -/
def canvasPass (o : CanvasPassOpts) (inVis : BB → Bool) (forExport : Bool)
    (render : CNode → Transform → Transform) (t0 : Transform)
    (nodes : List CNode) : PassTrace :=
  nodes.foldl (canvasStep o inVis forExport render t0) ⟨t0, [], [], []⟩

/-- `baseOptions.isVisible` of the HTML/SVG branch (nodes.ts:207):
`checkBounds ? (bb) => layer.inVisibleBounds(bb) : () => true`. Note the
predicate takes only the bounding box: the DOM render path carries no
export flag at all. -/
def isVisibleDOM (checkBounds : Bool) (inVis : BB → Bool) : BB → Bool :=
  if checkBounds then fun bb => inVis bb else fun _ => true

/-- Modelled from the spec: `matchNodes` (src/elements/utils.ts, not under
src/) renders a target for each matched node, skipping nodes whose
`isVisible` bounding-box test fails (section 4.3 visibility culling).
Returns the ids of the nodes actually rendered. -/
def matchRendered (isVisible : BB → Bool) (nodes : List CNode) : List Nat :=
  (nodes.filter (fun nd => isVisible nd.bb)).map (fun nd => nd.id)

/-- The anchoring applied by the HTML/SVG `update` callback
(nodes.ts:226-234 and 259-267): the `translate3d` offset written into the
target's transform, `none` when `position` is `'none'` (no transform is
assigned). -/
def htmlAnchorOffset : NPosition → CNode → BB → Option (Int × Int)
  | .topLeft, _, bb => some (bb.x1, bb.y1)
  | .center, nd, _ => some (nd.posX, nd.posY)
  | .none, _, _ => Option.none

/-- The cached collection state touched by the `removeNode` handler:
the collection contents and the arguments of the `layer.update(node)`
calls issued so far. -/
structure CacheState where
  nodes : List Nat
  updates : List Nat
deriving DecidableEq, Repr

/-- `removeNode` (nodes.ts:116-120): `nodes = nodes.difference(node)`
followed by `layer.update(node)`. -/
def removeNodeHandler (st : CacheState) (n : Nat) : CacheState :=
  { nodes := st.nodes.filter (fun x => x != n), updates := st.updates ++ [n] }

end NodesM

namespace NodesM

/-- A node used by concrete evaluations: at position (3, 4). -/
def nd0 : CNode := ⟨0, false, 3, 4, ⟨0, 0, 1, 1⟩⟩

/-- C4 counterexample: the claim includes position `'none'`, but the
renderer restores the saved transform only when `position !== 'none'`
(nodes.ts:195-197). With position `'none'` and a draw callback that sets
the transform to (5, 5), the transform left for the next sibling is
(5, 5), not the saved (0, 0): the callback's mutation leaks. -/
theorem c4_counterexample_position_none :
    ((canvasPass ⟨NPosition.none, false⟩ (fun _ => true) false (fun _ _ => (5, 5)) (0, 0)
      [nd0]).afterTransforms.all (fun x => x == ((0, 0) : Transform))) = false := by
  decide

/-- Every transform left behind by a per-element iteration equals the
saved transform `t0`, provided the position mode is not `'none'`. -/
theorem canvasPass_afterTransforms_aux (o : CanvasPassOpts) (inVis : BB → Bool)
    (forExport : Bool) (render : CNode → Transform → Transform) (t0 : Transform)
    (hpos : o.position ≠ NPosition.none) :
    ∀ (nodes : List CNode) (st : PassTrace),
      (∀ x ∈ st.afterTransforms, x = t0) →
      ∀ x ∈ (nodes.foldl (canvasStep o inVis forExport render t0) st).afterTransforms, x = t0 := by
  intro nodes
  induction nodes with
  | nil => exact fun st h => h
  | cons nd rest ih =>
    intro st h
    simp only [List.foldl_cons]
    apply ih
    unfold canvasStep
    split
    · exact h
    · split
      · exact h
      · intro x hx
        simp only [List.mem_append, List.mem_singleton] at hx
        rcases hx with hx | hx
        · exact h x hx
        · rw [hx]

/-- C4 amended: for position `'top-left'` and `'center'` (every mode other
than `'none'`), the drawing context's transform after each element's
processing equals the transform saved before the pass began, for every
caller-supplied draw callback — no callback mutation is observable by the
next sibling. With position `'none'` the transform is not restored (see
the counterexample). -/
theorem c4_transform_restored (o : CanvasPassOpts) (inVis : BB → Bool) (forExport : Bool)
    (render : CNode → Transform → Transform) (t0 : Transform) (nodes : List CNode)
    (hpos : o.position ≠ NPosition.none) :
    ((canvasPass o inVis forExport render t0 nodes).afterTransforms.all
      (fun x => x == t0)) = true := by
  rw [List.all_eq_true]
  intro x hx
  have hx0 : x = t0 :=
    canvasPass_afterTransforms_aux o inVis forExport render t0 hpos nodes
      ⟨t0, [], [], []⟩ (by simp) x hx
  simp [hx0]

theorem c4_transform_restored_witness :
    (⟨NPosition.topLeft, false⟩ : CanvasPassOpts).position ≠ NPosition.none ∧
    ((canvasPass ⟨NPosition.topLeft, false⟩ (fun _ => true) false (fun _ _ => (5, 5)) (0, 0)
      [nd0]).afterTransforms.all (fun x => x == ((0, 0) : Transform))) = true :=
  ⟨by decide, c4_transform_restored _ _ _ _ _ _ (by decide)⟩

/-- The visible viewport region used by the concrete bound checks. -/
def viewC6 : BB := ⟨0, 0, 100, 100⟩

/-- A node whose bounding box lies entirely outside `viewC6`. -/
def ndC6 : CNode := ⟨7, false, 500, 500, ⟨400, 400, 450, 450⟩⟩

/-- C6 counterexample: the claim asserts the export bypass for every
Surface kind including HTML and SVG. On the HTML/SVG path the visibility
predicate is `checkBounds ? (bb) => layer.inVisibleBounds(bb) : () => true`
(nodes.ts:207): it receives only the bounding box, and the DOM renderers
(nodes.ts:236-245, 269-278) receive no render hint, so no export flag can
reach it. An out-of-bounds element is therefore skipped in every DOM
pass, export passes included — here concretely. -/
theorem c6_counterexample_dom_no_export_bypass :
    inVisibleBounds viewC6 ndC6.bb = false ∧
    matchRendered (isVisibleDOM true (inVisibleBounds viewC6)) [ndC6] = [] := by
  decide

/-- C6 amended: on canvas Surfaces the claim holds: with `checkBounds` on,
an out-of-viewport element is skipped in a normal pass and rendered in an
export pass (the bounds check tests `!hint.forExport` first,
nodes.ts:185-187). On HTML/SVG Surfaces the culling has no export bypass:
the rendered set is determined by the bounds test alone, because the
visibility predicate takes no export flag. -/
theorem c6_bounds_check_export (p : NPosition) (inVis : BB → Bool)
    (render : CNode → Transform → Transform) (t0 : Transform) (nd : CNode)
    (hrem : nd.removed = false) (hout : inVis nd.bb = false) :
    (canvasPass ⟨p, true⟩ inVis false render t0 [nd]).rendered = [] ∧
    (canvasPass ⟨p, true⟩ inVis true render t0 [nd]).rendered = [nd] ∧
    ∀ nodes : List CNode,
      matchRendered (isVisibleDOM true inVis) nodes
        = (nodes.filter (fun m => inVis m.bb)).map (fun m => m.id) := by
  refine ⟨?_, ?_, ?_⟩
  · simp [canvasPass, canvasStep, hrem, hout]
  · simp [canvasPass, canvasStep, hrem, hout]
  · intro nodes
    simp [matchRendered, isVisibleDOM]

theorem c6_bounds_check_export_witness :
    (ndC6.removed = false ∧ inVisibleBounds viewC6 ndC6.bb = false) ∧
    ((canvasPass ⟨NPosition.topLeft, true⟩ (inVisibleBounds viewC6) false (fun _ x => x)
        (0, 0) [ndC6]).rendered = [] ∧
     (canvasPass ⟨NPosition.topLeft, true⟩ (inVisibleBounds viewC6) true (fun _ x => x)
        (0, 0) [ndC6]).rendered = [ndC6] ∧
     ∀ nodes : List CNode,
       matchRendered (isVisibleDOM true (inVisibleBounds viewC6)) nodes
         = (nodes.filter (fun m => inVisibleBounds viewC6 m.bb)).map (fun m => m.id)) :=
  ⟨⟨rfl, by decide⟩, c6_bounds_check_export _ _ _ _ _ rfl (by decide)⟩

/-- Everything the canvas pass renders has `removed() = false`: the loop
returns early on removed nodes. -/
theorem canvasPass_rendered_aux (o : CanvasPassOpts) (inVis : BB → Bool)
    (forExport : Bool) (render : CNode → Transform → Transform) (t0 : Transform) :
    ∀ (nodes : List CNode) (st : PassTrace),
      (st.rendered.all (fun m => !m.removed)) = true →
      (((nodes.foldl (canvasStep o inVis forExport render t0) st).rendered.all
        (fun m => !m.removed))) = true := by
  intro nodes
  induction nodes with
  | nil => exact fun st h => h
  | cons nd rest ih =>
    intro st h
    simp only [List.foldl_cons]
    apply ih
    unfold canvasStep
    split
    · exact h
    · split
      · exact h
      · rename_i hrem _
        simp only [Bool.not_eq_true] at hrem
        simp [List.all_append, h, hrem]

/-- A helper: filtering out an element makes `contains` false for it. -/
theorem filter_ne_contains_false (l : List Nat) (n : Nat) :
    ((l.filter (fun x => x != n)).contains n) = false := by
  induction l with
  | nil => rfl
  | cons a t ih =>
    by_cases h : a = n
    · simp [List.filter_cons, h, ih]
    · simp [List.filter_cons, h, List.contains_cons, Ne.symm h, ih]

/-- C8: no render target is rendered for a removed host element — the
canvas per-element loop skips every node with `removed()` true — and the
`removeNode` handler excises exactly the removed element from the cached
collection (leaving the rest untouched) before issuing the repaint
`layer.update(node)`. -/
theorem c8_removed_nodes_never_rendered (o : CanvasPassOpts) (inVis : BB → Bool)
    (forExport : Bool) (render : CNode → Transform → Transform) (t0 : Transform)
    (nodes : List CNode) (st : CacheState) (n : Nat) :
    ((canvasPass o inVis forExport render t0 nodes).rendered.all
      (fun m => !m.removed)) = true ∧
    ((removeNodeHandler st n).nodes.contains n) = false ∧
    (removeNodeHandler st n).nodes = st.nodes.filter (fun x => x != n) ∧
    (removeNodeHandler st n).updates = st.updates ++ [n] :=
  ⟨canvasPass_rendered_aux o inVis forExport render t0 nodes ⟨t0, [], [], []⟩ rfl,
   filter_ne_contains_false st.nodes n, rfl, rfl⟩

/-- A node at position (10, 20) with a bounding box of a different
corner, for the anchor witness. -/
def ndC9 : CNode := ⟨3, false, 10, 20, ⟨8, 15, 30, 40⟩⟩

/-- C9: with position `'center'` the transform handed to the draw
callback is the saved transform translated by the element's position
point `(pos.x, pos.y)` — independent of the bounding box, which is
arbitrary here; with `'top-left'` it is translated by the bounding box's
top-left corner `(x1, y1)` (nodes.ts:188-193). On the HTML/SVG path the
`update` callback writes the same offsets into the target's
`translate3d` transform (nodes.ts:226-234). -/
theorem c9_anchor_transform (t0 : Transform) (nd : CNode) (inVis : BB → Bool)
    (render : CNode → Transform → Transform) (hrem : nd.removed = false) :
    (canvasPass ⟨NPosition.center, false⟩ inVis false render t0 [nd]).entryTransforms
      = [(t0.1 + nd.posX, t0.2 + nd.posY)] ∧
    (canvasPass ⟨NPosition.topLeft, false⟩ inVis false render t0 [nd]).entryTransforms
      = [(t0.1 + nd.bb.x1, t0.2 + nd.bb.y1)] ∧
    htmlAnchorOffset NPosition.center nd nd.bb = some (nd.posX, nd.posY) ∧
    htmlAnchorOffset NPosition.topLeft nd nd.bb = some (nd.bb.x1, nd.bb.y1) := by
  refine ⟨?_, ?_, rfl, rfl⟩ <;> simp [canvasPass, canvasStep, translate, hrem]

theorem c9_anchor_transform_witness :
    ndC9.removed = false ∧
    ((canvasPass ⟨NPosition.center, false⟩ (fun _ => true) false (fun _ x => x)
        (0, 0) [ndC9]).entryTransforms = [(10, 20)] ∧
     (canvasPass ⟨NPosition.topLeft, false⟩ (fun _ => true) false (fun _ x => x)
        (0, 0) [ndC9]).entryTransforms = [(8, 15)] ∧
     htmlAnchorOffset NPosition.center ndC9 ndC9.bb = some (10, 20) ∧
     htmlAnchorOffset NPosition.topLeft ndC9 ndC9.bb = some (8, 15)) :=
  ⟨rfl, c9_anchor_transform (0, 0) ndC9 (fun _ => true) (fun _ x => x) rfl⟩

end NodesM

/-- Apply a function `n` times. -/
def applyN {α : Type} (f : α → α) : Nat → α → α
  | 0, a => a
  | n + 1, a => applyN f n (f a)

namespace SchedM

/-- State of the deferred-update scheduler of `renderPerNode`
(nodes.ts:103-114): the `updateOnRenderOnceEnabled` debounce flag, the
number of one-shot `'render'` listeners currently registered via
`cy.one('render', ...)`, and counters of collection re-evaluations and
`layer.update()` repaints performed so far. -/
structure Sched where
  updateOnRenderOnceEnabled : Bool
  pendingRenderListeners : Nat
  reevalCount : Nat
  updateCount : Nat
deriving DecidableEq, Repr

/-- `revaluateAndUpdateOnce` (nodes.ts:104-114): returns immediately when
the flag is set; otherwise sets the flag and registers one one-shot
`'render'` listener. This is what every invalidating add/remove event
calls in cached (non-`queryEachTime`) mode. -/
def revaluateAndUpdateOnce (s : Sched) : Sched :=
  if s.updateOnRenderOnceEnabled then s
  else { s with updateOnRenderOnceEnabled := true
                pendingRenderListeners := s.pendingRenderListeners + 1 }

/-- The next host `'render'` tick: every registered one-shot listener
fires once and is deregistered; each firing clears the flag, re-evaluates
the collection once (`nodes = reevaluateCollection(nodes)`) and repaints
once (`layer.update()`). -/
def renderTick (s : Sched) : Sched :=
  { updateOnRenderOnceEnabled :=
      if s.pendingRenderListeners = 0 then s.updateOnRenderOnceEnabled else false
    pendingRenderListeners := 0
    reevalCount := s.reevalCount + s.pendingRenderListeners
    updateCount := s.updateCount + s.pendingRenderListeners }

/-- Once the flag is set, further scheduler calls are the identity. -/
theorem revaluate_noop_when_enabled (s : Sched)
    (h : s.updateOnRenderOnceEnabled = true) : revaluateAndUpdateOnce s = s := by
  simp [revaluateAndUpdateOnce, h]

/-- Iterating the scheduler from an enabled state changes nothing. -/
theorem applyN_revaluate_enabled (n : Nat) (s : Sched)
    (h : s.updateOnRenderOnceEnabled = true) :
    applyN revaluateAndUpdateOnce n s = s := by
  induction n with
  | zero => rfl
  | succ m ih => rw [applyN, revaluate_noop_when_enabled s h, ih]

/-- C2: starting from an idle scheduler (flag clear, nothing pending),
a burst of `n ≥ 1` invalidating events before the next render tick
registers exactly one one-shot render listener (every call after the
first is a no-op on the whole state), and the next render tick performs
exactly one collection re-evaluation and exactly one repaint. -/
theorem c2_single_reevaluation_per_tick (s : Sched) (n : Nat) (h1 : 1 ≤ n)
    (h2 : s.updateOnRenderOnceEnabled = false) (h3 : s.pendingRenderListeners = 0) :
    (applyN revaluateAndUpdateOnce n s).pendingRenderListeners = 1 ∧
    revaluateAndUpdateOnce (applyN revaluateAndUpdateOnce n s)
      = applyN revaluateAndUpdateOnce n s ∧
    (renderTick (applyN revaluateAndUpdateOnce n s)).reevalCount = s.reevalCount + 1 ∧
    (renderTick (applyN revaluateAndUpdateOnce n s)).updateCount = s.updateCount + 1 := by
  obtain ⟨m, rfl⟩ : ∃ m, n = m + 1 := ⟨n - 1, (Nat.succ_pred_eq_of_pos h1).symm⟩
  have hstep : revaluateAndUpdateOnce s
      = { s with updateOnRenderOnceEnabled := true
                 pendingRenderListeners := s.pendingRenderListeners + 1 } := by
    simp [revaluateAndUpdateOnce, h2]
  have hall : applyN revaluateAndUpdateOnce (m + 1) s
      = { s with updateOnRenderOnceEnabled := true
                 pendingRenderListeners := s.pendingRenderListeners + 1 } := by
    rw [applyN, hstep, applyN_revaluate_enabled m _ rfl]
  rw [hall]
  refine ⟨by simp [h3], revaluate_noop_when_enabled _ rfl, ?_, ?_⟩ <;>
    simp [renderTick, h3]

theorem c2_single_reevaluation_per_tick_witness :
    (1 ≤ 3 ∧ (⟨false, 0, 0, 0⟩ : Sched).updateOnRenderOnceEnabled = false ∧
      (⟨false, 0, 0, 0⟩ : Sched).pendingRenderListeners = 0) ∧
    ((applyN revaluateAndUpdateOnce 3 (⟨false, 0, 0, 0⟩ : Sched)).pendingRenderListeners = 1 ∧
     revaluateAndUpdateOnce (applyN revaluateAndUpdateOnce 3 (⟨false, 0, 0, 0⟩ : Sched))
       = applyN revaluateAndUpdateOnce 3 (⟨false, 0, 0, 0⟩ : Sched) ∧
     (renderTick (applyN revaluateAndUpdateOnce 3 (⟨false, 0, 0, 0⟩ : Sched))).reevalCount
       = (⟨false, 0, 0, 0⟩ : Sched).reevalCount + 1 ∧
     (renderTick (applyN revaluateAndUpdateOnce 3 (⟨false, 0, 0, 0⟩ : Sched))).updateCount
       = (⟨false, 0, 0, 0⟩ : Sched).updateCount + 1) :=
  ⟨⟨by decide, rfl, rfl⟩,
   c2_single_reevaluation_per_tick ⟨false, 0, 0, 0⟩ 3 (by decide) rfl rfl⟩

end SchedM

namespace CoreM

/-- The cytoscape core as the accessor sees it: whether `cy.container()`
is non-null, the `'_layers'` scratch slot, and a counter standing for
`new LayersPlugin(cy)` allocations. -/
structure Core where
  hasContainer : Bool
  scratchLayers : Option Nat
  nextPluginId : Nat
deriving DecidableEq, Repr

/-- The `layers` accessor (LayersPlugin.ts:186-198): throws in headless
environments; returns the scratch singleton when present; otherwise
constructs a plugin, stores it in scratch and returns it. -/
def layersAccessor (cy : Core) : Except String (Nat × Core) :=
  if cy.hasContainer = false then
    .error "layers plugin does not work in headless environments"
  else
    match cy.scratchLayers with
    | some p => .ok (p, cy)
    | none =>
      .ok (cy.nextPluginId,
           { cy with scratchLayers := some cy.nextPluginId
                     nextPluginId := cy.nextPluginId + 1 })

/-- C10: the accessor is idempotent per core: a successful call leaves
the returned plugin in the core's scratch storage, and calling again on
the resulting core returns the identical plugin with the core unchanged —
no second construction happens (the allocation counter is untouched). -/
theorem c10_layers_idempotent (cy : Core) (p : Nat) (cy2 : Core)
    (h : layersAccessor cy = .ok (p, cy2)) :
    cy2.scratchLayers = some p ∧ layersAccessor cy2 = .ok (p, cy2) := by
  unfold layersAccessor at h ⊢
  by_cases hc : cy.hasContainer = false
  · simp [hc] at h
  · simp only [hc, if_false] at h ⊢
    cases hs : cy.scratchLayers with
    | some q =>
      rw [hs] at h
      cases h
      simp_all
    | none =>
      rw [hs] at h
      cases h
      simp

theorem c10_layers_idempotent_witness :
    layersAccessor ⟨true, Option.none, 0⟩ = .ok (0, ⟨true, some 0, 1⟩) ∧
    ((⟨true, some 0, 1⟩ : Core).scratchLayers = some 0 ∧
     layersAccessor ⟨true, some 0, 1⟩ = .ok (0, ⟨true, some 0, 1⟩)) :=
  ⟨rfl, c10_layers_idempotent ⟨true, Option.none, 0⟩ 0 ⟨true, some 0, 1⟩ rfl⟩

end CoreM

namespace ListenM

/-- The `updateOn` option: `'render'`, `'none'`, or a custom
geometry-event name (e.g. `'position'`). -/
inductive UpdOn
  | none
  | render
  | custom
deriving DecidableEq, Repr

/-- The handler identities `renderPerNode` registers:
`layer.updateOnRenderOnce` (the layer method used for `updateOn`
listeners), the local `removeNode`, and the local
`revaluateAndUpdateOnce`. -/
inductive Handler
  | updateOnRenderOnce
  | removeNode
  | revaluateAndUpdateOnce
deriving DecidableEq, Repr

/-- Where a listener is attached: the core (`layer.cy.on`) or a node
collection (`nodes.on`), collections being distinguished by the id that
`reevaluateCollection` assigns when it queries them. -/
inductive Target
  | core
  | coll (id : Nat)
deriving DecidableEq, Repr

/-- The event names involved: `'add'`, `'remove'`, and the custom
`updateOn` event. -/
inductive Ev
  | add
  | remove
  | evUpdateOn
deriving DecidableEq, Repr

/-- One registered event listener. -/
structure Listener where
  target : Target
  ev : Ev
  handler : Handler
deriving DecidableEq, Repr

/-- The set of currently registered listeners (with multiplicity, in
registration order). -/
abbrev Registry := List Listener

/-- `.off(event, selector, handler)`: cytoscape removes every listener
matching the event, selector and handler. -/
def offAll (reg : Registry) (t : Target) (e : Ev) (h : Handler) : Registry :=
  reg.filter (fun l => !(l.target == t && l.ev == e && l.handler == h))

/-- `.on(event, selector, handler)`: appends a listener. -/
def onReg (reg : Registry) (t : Target) (e : Ev) (h : Handler) : Registry :=
  reg ++ [⟨t, e, h⟩]

/-- The `renderPerNode` options governing listener bookkeeping. -/
structure BindOpts where
  updateOn : UpdOn
  allowPartialUpdate : Bool
  queryEachTime : Bool
deriving DecidableEq, Repr

/-- Listener-bookkeeping state: the registry, the id of the collection
currently held by the `nodes` variable, and a fresh collection id. -/
structure BindState where
  reg : Registry
  coll : Nat
  nextColl : Nat
deriving DecidableEq, Repr

/-- `reevaluateCollection` (nodes.ts:122-143): removes the `updateOn`
listener from the old collection (when `updateOn` is neither `'none'`
nor `'render'`), removes the core `'remove'` listener for `removeNode`
when `allowPartialUpdate`, queries a fresh collection, and re-registers
both kinds of listener on the new collection / the core. -/
def reevaluateCollection (o : BindOpts) (st : BindState) : BindState :=
  let r1 := if o.updateOn != UpdOn.none && o.updateOn != UpdOn.render
            then offAll st.reg (Target.coll st.coll) Ev.evUpdateOn Handler.updateOnRenderOnce
            else st.reg
  let r2 := if o.allowPartialUpdate
            then offAll r1 Target.core Ev.remove Handler.removeNode
            else r1
  let r3 := if o.updateOn != UpdOn.none && o.updateOn != UpdOn.render
            then onReg r2 (Target.coll st.nextColl) Ev.evUpdateOn Handler.updateOnRenderOnce
            else r2
  let r4 := if o.allowPartialUpdate
            then onReg r3 Target.core Ev.remove Handler.removeNode
            else r3
  { reg := r4, coll := st.nextColl, nextColl := st.nextColl + 1 }

/-- Before setup: no listeners, `nodes = cy.collection()` (id 0). -/
def initialBindState : BindState := ⟨[], 0, 1⟩

/-- The listener registrations performed by the body of `renderPerNode`
(nodes.ts:148-156): in cached mode an initial `reevaluateCollection`,
then either (`allowPartialUpdate` with a custom `updateOn`) an `'add'`
listener for `revaluateAndUpdateOnce` plus a `'remove'` listener for
`removeNode`, or otherwise an `'add remove'` listener for
`revaluateAndUpdateOnce`. In `queryEachTime` mode nothing is registered
up front. -/
def setupBinding (o : BindOpts) : BindState :=
  if o.queryEachTime then initialBindState
  else
    let st1 := reevaluateCollection o initialBindState
    if o.allowPartialUpdate && (o.updateOn != UpdOn.none && o.updateOn != UpdOn.render) then
      { st1 with reg := onReg (onReg st1.reg Target.core Ev.add Handler.revaluateAndUpdateOnce)
                              Target.core Ev.remove Handler.removeNode }
    else
      { st1 with reg := onReg (onReg st1.reg Target.core Ev.add Handler.revaluateAndUpdateOnce)
                              Target.core Ev.remove Handler.revaluateAndUpdateOnce }

/-- A render pass touches listeners only in `queryEachTime` mode, where
every pass re-runs `reevaluateCollection` (nodes.ts:177-179, 237-239,
270-272). -/
def renderPassL (o : BindOpts) (st : BindState) : BindState :=
  if o.queryEachTime then reevaluateCollection o st else st

/-- The `remove()` handle built by `wrapResult` (nodes.ts:158-171): when
`updateOn` is neither `'none'` nor `'render'`, it unregisters the
`updateOn` listener from the current collection and — only inside that
guard — the `removeNode` listener when `allowPartialUpdate`; then it
unregisters the `'add remove'` `revaluateAndUpdateOnce` listeners.
(`v.remove()` also drops the render callback itself, which is not an
event listener.) -/
def removeBinding (o : BindOpts) (st : BindState) : BindState :=
  let r1 := if o.updateOn != UpdOn.none && o.updateOn != UpdOn.render then
              let a := offAll st.reg (Target.coll st.coll) Ev.evUpdateOn Handler.updateOnRenderOnce
              if o.allowPartialUpdate then offAll a Target.core Ev.remove Handler.removeNode
              else a
            else st.reg
  let r2 := offAll (offAll r1 Target.core Ev.add Handler.revaluateAndUpdateOnce)
                   Target.core Ev.remove Handler.revaluateAndUpdateOnce
  { st with reg := r2 }

/-- The registry shape maintained by `reevaluateCollection` for the
collection currently identified by `c`. -/
def Rreg (o : BindOpts) (c : Nat) : Registry :=
  (if o.updateOn != UpdOn.none && o.updateOn != UpdOn.render
   then [⟨Target.coll c, Ev.evUpdateOn, Handler.updateOnRenderOnce⟩] else [])
  ++ (if o.allowPartialUpdate then [⟨Target.core, Ev.remove, Handler.removeNode⟩] else [])

/-- C7 counterexample: with `allowPartialUpdate = true`,
`updateOn = 'render'` and cached mode, setup registers the per-element
`removeNode` listener (inside `reevaluateCollection`, whose registration
is guarded only by `allowPartialUpdate`), but the `remove()` handle
unregisters `removeNode` only under the `updateOn !== 'none' &&
updateOn !== 'render'` guard — so after `remove()` that listener is still
registered, contradicting the claim that every installed listener is
unregistered in every configuration. -/
theorem c7_counterexample_leaked_remove_listener :
    ((setupBinding ⟨UpdOn.render, true, false⟩).reg.contains
      ⟨Target.core, Ev.remove, Handler.removeNode⟩) = true ∧
    (removeBinding ⟨UpdOn.render, true, false⟩
      (setupBinding ⟨UpdOn.render, true, false⟩)).reg
      = [⟨Target.core, Ev.remove, Handler.removeNode⟩] := by
  decide

end ListenM

namespace ListenM

/-- Iterating a function that fixes every point changes nothing. -/
theorem applyN_fixed {α : Type} (f : α → α) (hf : ∀ a, f a = a) :
    ∀ (n : Nat) (a : α), applyN f n a = a := by
  intro n
  induction n with
  | zero => intro a; rfl
  | succ m ih => intro a; rw [applyN, hf, ih]

/-- `applyN` commutes with one application. -/
theorem applyN_succ_out {α : Type} (f : α → α) (n : Nat) (a : α) :
    applyN f n (f a) = f (applyN f n a) := by
  induction n generalizing a with
  | zero => rfl
  | succ m ih =>
    rw [applyN, ih]
    rw [applyN]

/-- Peeling one application off the outside. -/
theorem applyN_succ_left {α : Type} (f : α → α) (n : Nat) (a : α) :
    applyN f (n + 1) a = f (applyN f n a) := by
  rw [applyN, applyN_succ_out]

/-- `reevaluateCollection` maps the canonical registry for the current
collection to the canonical registry for the freshly queried one. -/
theorem reeval_from_good (o : BindOpts) (st : BindState) (h : st.reg = Rreg o st.coll) :
    reevaluateCollection o st = ⟨Rreg o st.nextColl, st.nextColl, st.nextColl + 1⟩ := by
  obtain ⟨u, p, q⟩ := o
  cases u <;> cases p <;> simp_all [reevaluateCollection, Rreg, offAll, onReg]

/-- What `remove()` leaves behind, from a canonical registry: nothing,
except the `removeNode` listener when `allowPartialUpdate` is on and
`updateOn` is `'none'` or `'render'`. -/
theorem remove_from_good (o : BindOpts) (st : BindState) (h : st.reg = Rreg o st.coll) :
    (removeBinding o st).reg =
      (if o.allowPartialUpdate && (o.updateOn == UpdOn.none || o.updateOn == UpdOn.render)
       then [⟨Target.core, Ev.remove, Handler.removeNode⟩] else ([] : Registry)) := by
  obtain ⟨u, p, q⟩ := o
  cases u <;> cases p <;> simp_all [removeBinding, Rreg, offAll, onReg]

/-- In `queryEachTime` mode, after `m + 1` render passes the registry is
the canonical one for the `m + 1`-st queried collection. -/
theorem applyN_reeval (u : UpdOn) (p : Bool) (m : Nat) :
    applyN (renderPassL ⟨u, p, true⟩) (m + 1) (setupBinding ⟨u, p, true⟩)
      = ⟨Rreg ⟨u, p, true⟩ (m + 1), m + 1, m + 2⟩ := by
  induction m with
  | zero => cases u <;> cases p <;> decide
  | succ n ih =>
    rw [applyN_succ_left, ih]
    have h2 := reeval_from_good ⟨u, p, true⟩ ⟨Rreg ⟨u, p, true⟩ (n + 1), n + 1, n + 2⟩ rfl
    simpa [renderPassL] using h2

/-- C7 amended: for every configuration and any number `k` of render
passes, the `remove()` handle unregisters every event listener the
binding installed, except in the configurations with
`allowPartialUpdate = true` and `updateOn` equal to `'none'` or
`'render'` (and, in `queryEachTime` mode, at least one render pass):
there the per-element `removeNode` listener registered by
`reevaluateCollection` survives, because `remove()` only unregisters it
under the `updateOn !== 'none' && updateOn !== 'render'` guard. -/
theorem c7_remove_listener_characterization (o : BindOpts) (k : Nat) :
    (removeBinding o (applyN (renderPassL o) k (setupBinding o))).reg =
      (if o.allowPartialUpdate
          && (o.updateOn == UpdOn.none || o.updateOn == UpdOn.render)
          && (!o.queryEachTime || k != 0)
       then [⟨Target.core, Ev.remove, Handler.removeNode⟩] else ([] : Registry)) := by
  obtain ⟨u, p, q⟩ := o
  cases q with
  | false =>
    have hid : ∀ st, renderPassL ⟨u, p, false⟩ st = st := fun st => rfl
    rw [applyN_fixed _ hid]
    simp only [Bool.not_false, Bool.true_or, Bool.and_true]
    cases u <;> cases p <;> decide
  | true =>
    cases k with
    | zero => cases u <;> cases p <;> decide
    | succ m =>
      rw [applyN_reeval u p m,
          remove_from_good ⟨u, p, true⟩ ⟨Rreg ⟨u, p, true⟩ (m + 1), m + 1, m + 2⟩ rfl]
      have hk : ((m + 1 : Nat) != 0) = true := by simp
      simp [hk]

end ListenM
